import Mathlib

/-!
# negroni-cloudwatch: the instrumentation middleware

An embedding of `middleware.go`.  Go code with effects is a function from a `State` (what
the code of a request reads and writes: the system clock and the request-scoped store of
`gorilla/context`) to a `Run`: the state reached, the calls the embedded code made, in
order, and whether it returned or panicked.

Values of function type that Go keeps in data (`Before`, `After`, `PutMetric`) are names;
what the functions installed by a caller do, what `url.Parse` answers and what the
CloudWatch client answers is given by an `Env`.  Such functions act on the `State`; they do
not assign to the fields of the middleware.  The clock reads the `State` and leaves it as
it is, as `realClock` and `testClock` do.
-/

namespace NegroniCloudwatch

/-! ## Data model -/

/-- Instant of `time.Time`: nanoseconds on the system clock. -/
abbrev Time := Int

/-- Value of `time.Duration`: an int64 count of nanoseconds. -/
abbrev Duration := Int

/-- Two's-complement wrap-around of int64 arithmetic. -/
def wrapInt64 (x : Int) : Int := (x + 2 ^ 63) % 2 ^ 64 - 2 ^ 63

/-- Saturation of `time.Time.Sub` at the least and greatest `Duration`. -/
def clampInt64 (x : Int) : Int :=
  if x < -(2 ^ 63) then -(2 ^ 63) else if 2 ^ 63 - 1 < x then 2 ^ 63 - 1 else x

/-- Keys of the request-scoped store (`interface{}`): values of `type key int`, or anything
else. -/
inductive CtxKey where
  | key (n : Int)
  | other (n : Nat)
  deriving DecidableEq, Repr

/-- Source: `const PutMetric key = 0`. -/
def PutMetric : CtxKey := .key 0

/-- Values of type `func(data []*cw.MetricDatum)`: the closure that `New` builds around
`putMetric`, or a function supplied by the caller. -/
inductive PutMetricFunc where
  | bound
  | custom (id : Nat)
  deriving DecidableEq, Repr

/-- Values of type `BeforeFunc`. -/
inductive BeforeFunc where
  | DefaultBefore
  | custom (id : Nat)
  deriving DecidableEq, Repr

/-- Values of type `AfterFunc`. -/
inductive AfterFunc where
  | DefaultAfter
  | custom (id : Nat)
  deriving DecidableEq, Repr

/-- Values held by the request-scoped store (`interface{}`). -/
inductive CtxVal where
  | func (f : PutMetricFunc)
  | other (n : Nat)
  deriving DecidableEq, Repr

/-- What the code of a request reads and writes: the system clock (`time.Now`) and the
store of `gorilla/context`, a `map[*http.Request]map[interface{}]interface{}` keyed by the
address of the request. -/
structure State where
  wall : Time
  data : List (Nat × List (CtxKey × CtxVal))
  deriving DecidableEq, Repr

/-- Go's `error` values as `putMetric` tells them apart: an `awserr.Error` with its code,
or any other error. -/
inductive GoError where
  | awserr (code : String) (message : String)
  | generic (message : String)
  deriving DecidableEq, Repr

/-- How a call ended. -/
inductive Outcome where
  | returned
  | panicked (msg : String)
  deriving DecidableEq, Repr

/-- Behaviour of a function the middleware is handed by its caller. -/
abbrev Effect := State → State × Outcome

/-- Headers of a request: `map[string][]string`. -/
abbrev Header := List (String × List String)

/-- The part of `url.URL` the middleware reads. -/
structure URL where
  Path : String
  deriving DecidableEq, Repr

/-- The part of `http.Request` the middleware reads; `ptr` is the address of the request,
the key of the request-scoped store. -/
structure Request where
  ptr : Nat
  URL : URL
  RequestURI : String
  RemoteAddr : String
  Header : Header
  deriving DecidableEq, Repr

/-- A value of the interface `http.ResponseWriter`; `isNegroni` tells whether its dynamic
type implements `negroni.ResponseWriter`. -/
structure ResponseWriter where
  ptr : Nat
  isNegroni : Bool
  deriving DecidableEq, Repr

/-- Source: `cw.Dimension`. -/
structure Dimension where
  Name : String
  Value : String
  deriving DecidableEq, Repr

/-- Source: `cw.MetricDatum`, the fields `DefaultAfter` fills in.  `Value` is the int64
that the source converts with `float64(...)`. -/
structure MetricDatum where
  MetricName : String
  Dimensions : List Dimension
  Timestamp : Time
  Unit : String
  Value : Int
  deriving DecidableEq, Repr

/-- Source: `cw.PutMetricDataInput`. -/
structure PutMetricDataInput where
  MetricData : List MetricDatum
  Namespace : String
  deriving DecidableEq, Repr

/-- The CloudWatch client as `New` configures it. -/
structure CloudWatch where
  region : String
  maxRetries : Nat
  deriving DecidableEq, Repr

/-- A call made by the embedded code.  `next` records the state in which the next handler
starts. -/
inductive Event where
  | clockNow
  | clockSince (start : Time)
  | Before (hook : BeforeFunc) (req : Request) (remoteAddr : String)
  | next (rw : ResponseWriter) (req : Request) (entry : State)
  | After (hook : AfterFunc) (req : Request) (res : ResponseWriter) (latency : Duration)
      (remoteAddr : String)
  | PutMetric (f : PutMetricFunc) (data : List MetricDatum)
  | PutMetricData (params : PutMetricDataInput)
  | Println (line : String)
  deriving DecidableEq, Repr

/-- Result of running embedded code: the state reached, the calls made in order, and how
the run ended. -/
structure Run where
  st : State
  calls : List Event
  out : Outcome
  deriving DecidableEq, Repr

/-- Sequencing: the rest runs only when the first part returned. -/
def Run.andThen (r : Run) (k : State → Run) : Run :=
  match r.out with
  | .returned => ⟨(k r.st).st, r.calls ++ (k r.st).calls, (k r.st).out⟩
  | .panicked msg => ⟨r.st, r.calls, .panicked msg⟩

/-- One call of a function handed in by the caller, recorded as `e`. -/
def Run.call (e : Event) (f : Effect) (s : State) : Run :=
  ⟨(f s).1, [e], (f s).2⟩

/-- A recorded step that leaves the state alone and returns. -/
def Run.step (e : Event) (s : State) : Run := ⟨s, [e], .returned⟩

/-- Source: `type timer interface`. -/
structure timer where
  Now : State → Time
  Since : Time → State → Duration

/-- Source: `realClock`, `time.Now()` and `time.Since(t)`. -/
def realClock : timer where
  Now := fun s => s.wall
  Since := fun t s => clampInt64 (s.wall - t)

/-- Source (tests): `testClock`, a fixed instant and `10 * time.Microsecond`. -/
def testClock (nowTime : Time) : timer where
  Now := fun _ => nowTime
  Since := fun _ _ => 10 * 1000

/-- Source: `type Middleware struct`, with the map, the clock and `PutMetric` set as `New`
sets them (not nil). -/
structure Middleware where
  Service : CloudWatch
  Namespace : String
  LatencyMetricName : String
  Before : Option BeforeFunc
  After : Option AfterFunc
  PutMetric : PutMetricFunc
  clock : timer
  excludeURLs : List String

/-- What lies outside the repository: `url.Parse` (`none` when the string parses), the
outcome of the client's `PutMetricData`, and the functions a caller may install. -/
structure Env where
  urlParse : String → Option GoError
  PutMetricData : CloudWatch → PutMetricDataInput → State → State × Option GoError
  Before : Nat → Middleware → Request → String → Effect
  After : Nat → Middleware → Request → ResponseWriter → Duration → String → Effect
  PutMetric : Nat → List MetricDatum → Effect

/-! ## Library operations the middleware calls -/

/-- Bytes allowed in a header name (`validHeaderFieldByte` of `net/textproto`). -/
def validHeaderFieldByte (c : Char) : Bool :=
  c.isAlphanum || [33, 35, 36, 37, 38, 39, 42, 43, 45, 46, 94, 95, 96, 124, 126].contains c.toNat

/-- Capital first letter and after each dash, lower case elsewhere. -/
def canonicalChars : Bool → List Char → List Char
  | _, [] => []
  | upper, c :: cs =>
    let d := if upper then c.toUpper else c.toLower
    d :: canonicalChars (d = '-') cs

/-- Source: `textproto.CanonicalMIMEHeaderKey`: a name with a byte that is not allowed is
left as it is. -/
def CanonicalMIMEHeaderKey (s : String) : String :=
  if s.data.all validHeaderFieldByte then String.mk (canonicalChars true s.data) else s

/-- Source: `http.Header.Get`: the first value under the canonical key, or the empty
string. -/
def Header.Get (h : Header) (key : String) : String :=
  match h.lookup (CanonicalMIMEHeaderKey key) with
  | some (v :: _) => v
  | _ => ""

/-- Source: `context.Set` of `gorilla/context`: `data[r][key] = val`. -/
def context.Set (s : State) (r : Request) (key : CtxKey) (val : CtxVal) : State :=
  let inner := (s.data.lookup r.ptr).getD []
  { s with data := (r.ptr, (key, val) :: inner.filter (fun p => p.1 ≠ key)) ::
      s.data.filter (fun p => p.1 ≠ r.ptr) }

/-- Source: `context.Get` of `gorilla/context`: `data[r][key]`, nil when absent. -/
def context.Get (s : State) (r : Request) (key : CtxKey) : Option CtxVal :=
  match s.data.lookup r.ptr with
  | some inner => inner.lookup key
  | none => none

/-- Source: `context.Clear` of `gorilla/context`: `delete(data, r)`. -/
def context.Clear (s : State) (r : Request) : State :=
  { s with data := s.data.filter (fun p => p.1 ≠ r.ptr) }

/-! ## The middleware -/

/-- Source: `New`.  The client's session is outside the repository; what is kept of it is
the region and the retry bound. -/
def New (region : String) (namespace_ : String) : Middleware where
  Service := ⟨region, 5⟩
  Namespace := namespace_
  LatencyMetricName := "Latency"
  Before := some .DefaultBefore
  After := some .DefaultAfter
  clock := realClock
  excludeURLs := []
  PutMetric := .bound

/-- Source: `putMetric`. -/
def putMetric (env : Env) (m : Middleware) (data : List MetricDatum) (s : State) : Run :=
  let params : PutMetricDataInput := ⟨data, m.Namespace⟩
  let resp := env.PutMetricData m.Service params s
  match resp.2 with
  | some (.awserr code _) => ⟨resp.1, [.PutMetricData params, .Println code], .returned⟩
  | some (.generic message) => ⟨resp.1, [.PutMetricData params, .Println message], .returned⟩
  | none => ⟨resp.1, [.PutMetricData params], .returned⟩

/-- The call `m.PutMetric(data)`: the closure of `New` runs `putMetric(&m, data)`. -/
def Middleware.callPutMetric (env : Env) (m : Middleware) (data : List MetricDatum)
    (s : State) : Run :=
  match m.PutMetric with
  | .bound => (Run.step (.PutMetric .bound data) s).andThen (putMetric env m data)
  | .custom id => Run.call (.PutMetric (.custom id) data) (env.PutMetric id data) s

/-- Source: `ExcludeURL`. -/
def Middleware.ExcludeURL (env : Env) (m : Middleware) (u : String) :
    Middleware × Option GoError :=
  match env.urlParse u with
  | some err => (m, some err)
  | none => ({ m with excludeURLs := if u ∈ m.excludeURLs then m.excludeURLs
                                     else m.excludeURLs ++ [u] }, none)

/-- Source: `ExcludedURLs`: the keys of the map, in the order the map is held here (Go
leaves the order open). -/
def Middleware.ExcludedURLs (m : Middleware) : List String :=
  m.excludeURLs.foldl (fun urls k => urls ++ [k]) []

/-- Source: `DefaultBefore`. -/
def DefaultBefore (m : Middleware) (req : Request) (_remoteAddr : String) (s : State) : Run :=
  ⟨context.Set s req PutMetric (.func m.PutMetric), [], .returned⟩

/-- Source: `DefaultAfter`. -/
def DefaultAfter (env : Env) (m : Middleware) (req : Request) (_res : ResponseWriter)
    (latency : Duration) (remoteAddr : String) (s : State) : Run :=
  let ms := wrapInt64 (latency * 1000)
  (m.callPutMetric env
    [{ MetricName := m.LatencyMetricName
       Dimensions := [⟨"RequestURI", req.RequestURI⟩, ⟨"RemoteAddr", remoteAddr⟩]
       Timestamp := s.wall
       Unit := "Microseconds"
       Value := ms }] s).andThen
    fun s1 => ⟨context.Clear s1 req, [], .returned⟩

/-- The call `m.Before(m, r, remoteAddr)`; calling a nil function panics. -/
def Middleware.callBefore (env : Env) (m : Middleware) (r : Request) (remoteAddr : String)
    (s : State) : Run :=
  match m.Before with
  | none => ⟨s, [], .panicked "invalid memory address or nil pointer dereference"⟩
  | some .DefaultBefore =>
    (Run.step (.Before .DefaultBefore r remoteAddr) s).andThen (DefaultBefore m r remoteAddr)
  | some (.custom id) =>
    Run.call (.Before (.custom id) r remoteAddr) (env.Before id m r remoteAddr) s

/-- The call `m.After(m, r, res, latency, remoteAddr)`; calling a nil function panics. -/
def Middleware.callAfter (env : Env) (m : Middleware) (r : Request) (res : ResponseWriter)
    (latency : Duration) (remoteAddr : String) (s : State) : Run :=
  match m.After with
  | none => ⟨s, [], .panicked "invalid memory address or nil pointer dereference"⟩
  | some .DefaultAfter =>
    (Run.step (.After .DefaultAfter r res latency remoteAddr) s).andThen
      (DefaultAfter env m r res latency remoteAddr)
  | some (.custom id) =>
    Run.call (.After (.custom id) r res latency remoteAddr)
      (env.After id m r res latency remoteAddr) s

/-- The type assertion `rw.(negroni.ResponseWriter)`. -/
def ResponseWriter.assertNegroni (rw : ResponseWriter) : Except String ResponseWriter :=
  if rw.isNegroni then .ok rw
  else .error "interface conversion: http.ResponseWriter is not negroni.ResponseWriter"

/-- The head of `ServeHTTP`: a nil hook is replaced by the default one. -/
def Middleware.bindDefaults (m : Middleware) : Middleware :=
  { m with Before := if m.Before = none then some .DefaultBefore else m.Before
           After := if m.After = none then some .DefaultAfter else m.After }

/-- Source: `ServeHTTP`.  Returns the middleware (whose nil hooks it has replaced) and the
run. -/
def Middleware.ServeHTTP (env : Env) (m : Middleware) (rw : ResponseWriter) (r : Request)
    (next : ResponseWriter → Request → Effect) (s : State) : Middleware × Run :=
  let m := m.bindDefaults
  if r.URL.Path ∈ m.excludeURLs then
    (m, ⟨s, [], .returned⟩)
  else
    let start := m.clock.Now s
    let remoteAddr := if r.Header.Get "X-Real-IP" ≠ "" then r.Header.Get "X-Real-IP"
                      else r.RemoteAddr
    (m, (Run.step .clockNow s).andThen fun s0 =>
      (m.callBefore env r remoteAddr s0).andThen fun s1 =>
      (Run.call (.next rw r s1) (next rw r) s1).andThen fun s2 =>
      let latency := m.clock.Since start s2
      (Run.step (.clockSince start) s2).andThen fun s3 =>
      match rw.assertNegroni with
      | .error msg => ⟨s3, [], .panicked msg⟩
      | .ok res => m.callAfter env r res latency remoteAddr s3)

/-! ## Kinds of calls -/

/-- Calls of the next handler. -/
def Event.isNext : Event → Bool
  | .next .. => true
  | _ => false

/-- Calls of the pre-hook `m.Before`. -/
def Event.isBefore : Event → Bool
  | .Before .. => true
  | _ => false

/-- Calls of the post-hook `m.After`. -/
def Event.isAfter : Event → Bool
  | .After .. => true
  | _ => false

/-- Calls of the clock, `Now` or `Since`. -/
def Event.isClock : Event → Bool
  | .clockNow => true
  | .clockSince _ => true
  | _ => false

/-- Calls of the emitter `m.PutMetric`. -/
def Event.isPutMetric : Event → Bool
  | .PutMetric .. => true
  | _ => false

/-- Calls of the client's `PutMetricData`. -/
def Event.isPutMetricData : Event → Bool
  | .PutMetricData _ => true
  | _ => false

/-- The calls `ServeHTTP` makes itself, as opposed to those its hooks make. -/
def Event.isStep (e : Event) : Bool :=
  e.isClock || e.isBefore || e.isNext || e.isAfter

/-! ## Concrete inputs: the scenarios of `middleware_test.go` -/

/-- A `url.Parse` that rejects ASCII control characters, as Go's does. -/
def ctlParse (u : String) : Option GoError :=
  if u.data.any (fun c => c.toNat < 32 || c.toNat = 127) then
    some (.generic "net/url: invalid control character in URL")
  else none

/-- An environment: the backend answers as `answer` says, the functions a caller installs
return at once. -/
def sampleEnv (answer : Option GoError) : Env where
  urlParse := ctlParse
  PutMetricData := fun _ _ s => (s, answer)
  Before := fun _ _ _ _ s => (s, .returned)
  After := fun _ _ _ _ _ _ s => (s, .returned)
  PutMetric := fun _ _ s => (s, .returned)

/-- The request of `setupServeHTTP`. -/
def sampleRequest : Request where
  ptr := 1
  URL := ⟨"/stuff"⟩
  RequestURI := "http://example.com/stuff?rly=ya"
  RemoteAddr := "192.0.2.1:1234"
  Header := [("X-Request-Id", ["22035D08-98EF-413C-BBA0-C4E66A11B28D"]),
             ("X-Real-Ip", ["10.10.10.10"])]

/-- A request for the excluded path `/ping`, without the `X-Real-IP` header. -/
def pingRequest : Request where
  ptr := 2
  URL := ⟨"/ping"⟩
  RequestURI := "/ping"
  RemoteAddr := "192.0.2.1:1234"
  Header := []

/-- The middleware of `setupServeHTTP`: `New`, the test clock, `/ping` excluded, and a
`PutMetric` installed by the test. -/
def sampleMiddleware : Middleware :=
  (Middleware.ExcludeURL (sampleEnv none)
    { New "us-east-1" "test" with clock := testClock 0, PutMetric := .custom 0 } "/ping").1

/-- The writer of `setupServeHTTP`, `negroni.NewResponseWriter(...)`. -/
def sampleWriter : ResponseWriter := ⟨7, true⟩

/-- A writer whose type does not implement `negroni.ResponseWriter`. -/
def plainWriter : ResponseWriter := ⟨8, false⟩

/-- A next handler that returns at once. -/
def sampleNext : ResponseWriter → Request → Effect := fun _ _ s => (s, .returned)

/-- A state with an empty store. -/
def sampleState : State := ⟨0, []⟩

/-! ## Names for the parts of a run of `ServeHTTP` -/

/-- The client address `ServeHTTP` works out. -/
def remoteAddrOf (r : Request) : String :=
  if r.Header.Get "X-Real-IP" ≠ "" then r.Header.Get "X-Real-IP" else r.RemoteAddr

/-- The state in which `ServeHTTP` starts the next handler. -/
def Middleware.entryState (env : Env) (m : Middleware) (r : Request) (s : State) : State :=
  (m.bindDefaults.callBefore env r (remoteAddrOf r) s).st

/-- The run of the post-hook inside `ServeHTTP`. -/
def Middleware.afterRun (env : Env) (m : Middleware) (rw : ResponseWriter) (r : Request)
    (next : ResponseWriter → Request → Effect) (s : State) : Run :=
  m.bindDefaults.callAfter env r rw
    (m.clock.Since (m.clock.Now s) (next rw r (m.entryState env r s)).1)
    (remoteAddrOf r) (next rw r (m.entryState env r s)).1

/-- The calls `ServeHTTP` makes itself when every one of them returns. -/
def Middleware.fullSteps (env : Env) (m : Middleware) (rw : ResponseWriter) (r : Request)
    (next : ResponseWriter → Request → Effect) (s : State) : List Event :=
  [.clockNow, .Before (m.Before.getD .DefaultBefore) r (remoteAddrOf r),
   .next rw r (m.entryState env r s), .clockSince (m.clock.Now s),
   .After (m.After.getD .DefaultAfter) r rw
     (m.clock.Since (m.clock.Now s) (next rw r (m.entryState env r s)).1) (remoteAddrOf r)]

/-- The calls the post-hook makes in its own body: those of `DefaultAfter` for the default
hook; a hook installed by the caller is a single recorded call. -/
def Middleware.afterCalls (env : Env) (m : Middleware) (r : Request) (res : ResponseWriter)
    (latency : Duration) (remoteAddr : String) (s : State) : List Event :=
  match m.After.getD .DefaultAfter with
  | .DefaultAfter => (DefaultAfter env m.bindDefaults r res latency remoteAddr s).calls
  | .custom _ => []

/-- A next handler as in `TestMiddleware_ServeHTTP`: it returns when the store holds the
emitter for its request and panics otherwise, so whether it returns depends on the
state. -/
def emittingNext : ResponseWriter → Request → Effect := fun _ r s =>
  match context.Get s r PutMetric with
  | some _ => (s, .returned)
  | none => (s, .panicked "no emitter for the request")

/-! ## Lemmas -/

theorem Run.andThen_step (e : Event) (s : State) (k : State → Run) :
    (Run.step e s).andThen k = ⟨(k s).st, e :: (k s).calls, (k s).out⟩ := rfl

theorem Run.andThen_returned (r : Run) (k : State → Run) (h : r.out = .returned) :
    r.andThen k = ⟨(k r.st).st, r.calls ++ (k r.st).calls, (k r.st).out⟩ := by
  unfold Run.andThen; rw [h]

theorem Run.andThen_panicked (r : Run) (k : State → Run) (msg : String)
    (h : r.out = .panicked msg) : r.andThen k = ⟨r.st, r.calls, .panicked msg⟩ := by
  unfold Run.andThen; rw [h]

theorem foldl_append_keys (l acc : List String) :
    l.foldl (fun urls k => urls ++ [k]) acc = acc ++ l := by
  induction l generalizing acc with
  | nil => simp
  | cons k ks ih => simp [ih]

theorem ExcludedURLs_eq (m : Middleware) : m.ExcludedURLs = m.excludeURLs := by
  simp [Middleware.ExcludedURLs, foldl_append_keys]

theorem putMetric_calls_not_PutMetric (env : Env) (m : Middleware) (data : List MetricDatum)
    (s : State) : (putMetric env m data s).calls.filter Event.isPutMetric = [] := by
  unfold putMetric
  cases h : (env.PutMetricData m.Service ⟨data, m.Namespace⟩ s).2 with
  | none => simp [h, Event.isPutMetric]
  | some err => cases err <;> simp [h, Event.isPutMetric]

theorem callPutMetric_calls (env : Env) (m : Middleware) (data : List MetricDatum)
    (s : State) :
    (m.callPutMetric env data s).calls.filter Event.isPutMetric =
      [.PutMetric m.PutMetric data] := by
  unfold Middleware.callPutMetric
  cases h : m.PutMetric with
  | bound =>
    simp [Run.andThen_step, Event.isPutMetric, putMetric_calls_not_PutMetric]
  | custom id => simp [Run.call, Event.isPutMetric]

theorem ServeHTTP_run (env : Env) (m : Middleware) (rw : ResponseWriter) (r : Request)
    (next : ResponseWriter → Request → Effect) (s : State)
    (hne : r.URL.Path ∉ m.excludeURLs) :
    (m.ServeHTTP env rw r next s).2 =
      (Run.step .clockNow s).andThen fun s0 =>
      (m.bindDefaults.callBefore env r (remoteAddrOf r) s0).andThen fun s1 =>
      (Run.call (.next rw r s1) (next rw r) s1).andThen fun s2 =>
      (Run.step (.clockSince (m.clock.Now s)) s2).andThen fun s3 =>
      match rw.assertNegroni with
      | .error msg => ⟨s3, [], .panicked msg⟩
      | .ok res => m.bindDefaults.callAfter env r res
          (m.clock.Since (m.clock.Now s) s2) (remoteAddrOf r) s3 := by
  have h2 : r.URL.Path ∉ m.bindDefaults.excludeURLs := hne
  unfold Middleware.ServeHTTP
  simp only [h2, if_false]
  rfl

theorem bindDefaults_Before (m : Middleware) :
    m.bindDefaults.Before = some (m.Before.getD .DefaultBefore) := by
  unfold Middleware.bindDefaults
  cases h : m.Before <;> simp

theorem bindDefaults_After (m : Middleware) :
    m.bindDefaults.After = some (m.After.getD .DefaultAfter) := by
  unfold Middleware.bindDefaults
  cases h : m.After <;> simp

theorem callBefore_calls (env : Env) (m : Middleware) (hook : BeforeFunc) (r : Request)
    (a : String) (s : State) (h : m.Before = some hook) :
    (m.callBefore env r a s).calls = [.Before hook r a] := by
  unfold Middleware.callBefore
  cases hook with
  | DefaultBefore => simp [h, Run.andThen_step, DefaultBefore]
  | custom id => simp [h, Run.call]

theorem callPutMetric_not_step (env : Env) (m : Middleware) (data : List MetricDatum)
    (s : State) : (m.callPutMetric env data s).calls.filter Event.isStep = [] := by
  unfold Middleware.callPutMetric
  cases h : m.PutMetric with
  | bound =>
    simp only [Run.andThen_step]
    unfold putMetric
    cases h : (env.PutMetricData m.Service ⟨data, m.Namespace⟩ s).2 with
    | none => simp [h, Event.isStep, Event.isClock, Event.isBefore, Event.isNext, Event.isAfter]
    | some err =>
      cases err <;>
        simp [h, Event.isStep, Event.isClock, Event.isBefore, Event.isNext, Event.isAfter]
  | custom id =>
    simp [Run.call, Event.isStep, Event.isClock, Event.isBefore, Event.isNext, Event.isAfter]

theorem DefaultAfter_not_step (env : Env) (m : Middleware) (req : Request)
    (res : ResponseWriter) (latency : Duration) (a : String) (s : State) :
    (DefaultAfter env m req res latency a s).calls.filter Event.isStep = [] := by
  unfold DefaultAfter
  simp only []
  have hc := callPutMetric_not_step env m [⟨m.LatencyMetricName,
    [⟨"RequestURI", req.RequestURI⟩, ⟨"RemoteAddr", a⟩], s.wall, "Microseconds",
    wrapInt64 (latency * 1000)⟩] s
  cases ho : (m.callPutMetric env [⟨m.LatencyMetricName,
    [⟨"RequestURI", req.RequestURI⟩, ⟨"RemoteAddr", a⟩], s.wall, "Microseconds",
    wrapInt64 (latency * 1000)⟩] s).out with
  | returned => simpa [Run.andThen_returned _ _ ho] using hc
  | panicked msg => simpa [Run.andThen_panicked _ _ msg ho] using hc

theorem callAfter_steps (env : Env) (m : Middleware) (hook : AfterFunc) (r : Request)
    (res : ResponseWriter) (d : Duration) (a : String) (s : State) (h : m.After = some hook) :
    (m.callAfter env r res d a s).calls.filter Event.isStep = [.After hook r res d a] := by
  unfold Middleware.callAfter
  cases hook with
  | DefaultAfter =>
    simp only [h, Run.andThen_step]
    simp [DefaultAfter_not_step, Event.isStep, Event.isClock, Event.isBefore, Event.isNext,
      Event.isAfter]
  | custom id =>
    simp [h, Run.call, Event.isStep, Event.isClock, Event.isBefore, Event.isNext,
      Event.isAfter]

theorem ServeHTTP_before_panicked (env : Env) (m : Middleware) (rw : ResponseWriter)
    (r : Request) (next : ResponseWriter → Request → Effect) (s : State)
    (hne : r.URL.Path ∉ m.excludeURLs) (msg : String)
    (hB : (m.bindDefaults.callBefore env r (remoteAddrOf r) s).out = .panicked msg) :
    (m.ServeHTTP env rw r next s).2 =
      ⟨(m.bindDefaults.callBefore env r (remoteAddrOf r) s).st,
       .clockNow :: (m.bindDefaults.callBefore env r (remoteAddrOf r) s).calls,
       .panicked msg⟩ := by
  rw [ServeHTTP_run env m rw r next s hne, Run.andThen_step,
    Run.andThen_panicked _ _ msg hB]

theorem ServeHTTP_next_panicked (env : Env) (m : Middleware) (rw : ResponseWriter)
    (r : Request) (next : ResponseWriter → Request → Effect) (s : State)
    (hne : r.URL.Path ∉ m.excludeURLs) (msg : String)
    (hB : (m.bindDefaults.callBefore env r (remoteAddrOf r) s).out = .returned)
    (hN : (next rw r (m.bindDefaults.callBefore env r (remoteAddrOf r) s).st).2 =
      .panicked msg) :
    (m.ServeHTTP env rw r next s).2 =
      ⟨(next rw r (m.bindDefaults.callBefore env r (remoteAddrOf r) s).st).1,
       .clockNow :: ((m.bindDefaults.callBefore env r (remoteAddrOf r) s).calls ++
         [.next rw r (m.bindDefaults.callBefore env r (remoteAddrOf r) s).st]),
       .panicked msg⟩ := by
  rw [ServeHTTP_run env m rw r next s hne, Run.andThen_step,
    Run.andThen_returned _ _ hB]
  have hN2 : (Run.call (.next rw r (m.bindDefaults.callBefore env r (remoteAddrOf r) s).st)
      (next rw r) (m.bindDefaults.callBefore env r (remoteAddrOf r) s).st).out =
      .panicked msg := hN
  rw [Run.andThen_panicked _ _ msg hN2]
  rfl

theorem ServeHTTP_not_negroni (env : Env) (m : Middleware) (rw : ResponseWriter)
    (r : Request) (next : ResponseWriter → Request → Effect) (s : State)
    (hne : r.URL.Path ∉ m.excludeURLs)
    (hB : (m.bindDefaults.callBefore env r (remoteAddrOf r) s).out = .returned)
    (hN : (next rw r (m.bindDefaults.callBefore env r (remoteAddrOf r) s).st).2 = .returned)
    (hrw : rw.isNegroni = false) :
    (m.ServeHTTP env rw r next s).2 =
      ⟨(next rw r (m.bindDefaults.callBefore env r (remoteAddrOf r) s).st).1,
       .clockNow :: ((m.bindDefaults.callBefore env r (remoteAddrOf r) s).calls ++
         [.next rw r (m.bindDefaults.callBefore env r (remoteAddrOf r) s).st,
          .clockSince (m.clock.Now s)]),
       .panicked "interface conversion: http.ResponseWriter is not negroni.ResponseWriter"⟩ := by
  rw [ServeHTTP_run env m rw r next s hne, Run.andThen_step,
    Run.andThen_returned _ _ hB]
  have hN2 : (Run.call (.next rw r (m.bindDefaults.callBefore env r (remoteAddrOf r) s).st)
      (next rw r) (m.bindDefaults.callBefore env r (remoteAddrOf r) s).st).out =
      .returned := hN
  rw [Run.andThen_returned _ _ hN2, Run.andThen_step]
  simp [ResponseWriter.assertNegroni, hrw, Run.call]

theorem ServeHTTP_negroni (env : Env) (m : Middleware) (rw : ResponseWriter)
    (r : Request) (next : ResponseWriter → Request → Effect) (s : State)
    (hne : r.URL.Path ∉ m.excludeURLs)
    (hB : (m.bindDefaults.callBefore env r (remoteAddrOf r) s).out = .returned)
    (hN : (next rw r (m.bindDefaults.callBefore env r (remoteAddrOf r) s).st).2 = .returned)
    (hrw : rw.isNegroni = true) :
    (m.ServeHTTP env rw r next s).2 =
      ⟨(m.bindDefaults.callAfter env r rw
          (m.clock.Since (m.clock.Now s)
            (next rw r (m.bindDefaults.callBefore env r (remoteAddrOf r) s).st).1)
          (remoteAddrOf r)
          (next rw r (m.bindDefaults.callBefore env r (remoteAddrOf r) s).st).1).st,
       .clockNow :: ((m.bindDefaults.callBefore env r (remoteAddrOf r) s).calls ++
         ([.next rw r (m.bindDefaults.callBefore env r (remoteAddrOf r) s).st,
           .clockSince (m.clock.Now s)] ++
          (m.bindDefaults.callAfter env r rw
            (m.clock.Since (m.clock.Now s)
              (next rw r (m.bindDefaults.callBefore env r (remoteAddrOf r) s).st).1)
            (remoteAddrOf r)
            (next rw r (m.bindDefaults.callBefore env r (remoteAddrOf r) s).st).1).calls)),
       (m.bindDefaults.callAfter env r rw
          (m.clock.Since (m.clock.Now s)
            (next rw r (m.bindDefaults.callBefore env r (remoteAddrOf r) s).st).1)
          (remoteAddrOf r)
          (next rw r (m.bindDefaults.callBefore env r (remoteAddrOf r) s).st).1).out⟩ := by
  rw [ServeHTTP_run env m rw r next s hne, Run.andThen_step,
    Run.andThen_returned _ _ hB]
  have hN2 : (Run.call (.next rw r (m.bindDefaults.callBefore env r (remoteAddrOf r) s).st)
      (next rw r) (m.bindDefaults.callBefore env r (remoteAddrOf r) s).st).out =
      .returned := hN
  rw [Run.andThen_returned _ _ hN2, Run.andThen_step]
  simp [ResponseWriter.assertNegroni, hrw, Run.call]

theorem bindDefaults_callBefore_calls (env : Env) (m : Middleware) (r : Request) (a : String)
    (s : State) :
    (m.bindDefaults.callBefore env r a s).calls =
      [.Before (m.Before.getD .DefaultBefore) r a] :=
  callBefore_calls env m.bindDefaults _ r a s (bindDefaults_Before m)

theorem ServeHTTP_steps (env : Env) (m : Middleware) (rw : ResponseWriter) (r : Request)
    (next : ResponseWriter → Request → Effect) (s : State)
    (hne : r.URL.Path ∉ m.excludeURLs) :
    ∃ n, 2 ≤ n ∧ n ≤ 5 ∧
      (m.ServeHTTP env rw r next s).2.calls.filter Event.isStep =
        (m.fullSteps env rw r next s).take n ∧
      ((m.bindDefaults.callBefore env r (remoteAddrOf r) s).out = .returned → 3 ≤ n) ∧
      ((m.bindDefaults.callBefore env r (remoteAddrOf r) s).out = .returned →
        (next rw r (m.entryState env r s)).2 = .returned → 4 ≤ n) ∧
      ((m.bindDefaults.callBefore env r (remoteAddrOf r) s).out = .returned →
        (next rw r (m.entryState env r s)).2 = .returned → rw.isNegroni = true → n = 5) ∧
      (rw.isNegroni = false →
        n ≤ 4 ∧ ∃ msg, (m.ServeHTTP env rw r next s).2.out = .panicked msg) ∧
      ((m.ServeHTTP env rw r next s).2.out = .returned →
        n = 5 ∧ (m.ServeHTTP env rw r next s).2.st = (m.afterRun env rw r next s).st ∧
        (m.afterRun env rw r next s).out = .returned) := by
  unfold Middleware.fullSteps Middleware.afterRun Middleware.entryState
  cases hB : (m.bindDefaults.callBefore env r (remoteAddrOf r) s).out with
  | panicked msg =>
    rw [ServeHTTP_before_panicked env m rw r next s hne msg hB]
    refine ⟨2, le_refl _, by omega, ?_, by simp, by simp, by simp, by simp, by simp⟩
    simp [bindDefaults_callBefore_calls, Event.isStep, Event.isClock, Event.isBefore]
  | returned =>
    cases hN : (next rw r (m.bindDefaults.callBefore env r (remoteAddrOf r) s).st).2 with
    | panicked msg =>
      rw [ServeHTTP_next_panicked env m rw r next s hne msg hB hN]
      refine ⟨3, by omega, by omega, ?_, by simp, by simp, by simp, by simp, by simp⟩
      simp [bindDefaults_callBefore_calls, Event.isStep, Event.isClock, Event.isBefore,
        Event.isNext]
    | returned =>
      cases hrw : rw.isNegroni with
      | false =>
        rw [ServeHTTP_not_negroni env m rw r next s hne hB hN hrw]
        refine ⟨4, by omega, by omega, ?_, by simp, by simp, by simp, by simp, by simp⟩
        simp [bindDefaults_callBefore_calls, Event.isStep, Event.isClock, Event.isBefore,
          Event.isNext]
      | true =>
        rw [ServeHTTP_negroni env m rw r next s hne hB hN hrw]
        refine ⟨5, by omega, by omega, ?_, by simp, by simp, by simp, by simp, ?_⟩
        · simp only [bindDefaults_callBefore_calls, List.filter_cons, List.filter_append,
            callAfter_steps env m.bindDefaults _ r rw _ _ _ (bindDefaults_After m)]
          simp [Event.isStep, Event.isClock, Event.isBefore, Event.isNext]
        · intro h
          refine ⟨?_, ?_, ?_⟩
          · rfl
          · rfl
          · exact h

theorem filter_isAfter_steps (l : List Event) :
    (l.filter Event.isStep).filter Event.isAfter = l.filter Event.isAfter := by
  rw [List.filter_filter]
  apply List.filter_congr
  intro e _
  cases e <;> rfl

theorem filter_isNext_steps (l : List Event) :
    (l.filter Event.isStep).filter Event.isNext = l.filter Event.isNext := by
  rw [List.filter_filter]
  apply List.filter_congr
  intro e _
  cases e <;> rfl

theorem lookup_filter_ne {β : Type} (k : Nat) (l : List (Nat × β)) :
    (l.filter (fun p => p.1 ≠ k)).lookup k = none := by
  simp
  intro a b _ h1 h2
  exact h1 h2.symm

theorem context_Get_Clear (s : State) (r : Request) (key : CtxKey) :
    context.Get (context.Clear s r) r key = none := by
  unfold context.Get context.Clear
  rw [lookup_filter_ne]

theorem context_Get_Set (s : State) (r : Request) (key : CtxKey) (val : CtxVal) :
    context.Get (context.Set s r key val) r key = some val := by
  simp [context.Get, context.Set, List.lookup_cons]

theorem DefaultAfter_clears (env : Env) (m : Middleware) (req : Request)
    (res : ResponseWriter) (latency : Duration) (a : String) (s : State) (key : CtxKey)
    (h : (DefaultAfter env m req res latency a s).out = .returned) :
    context.Get (DefaultAfter env m req res latency a s).st req key = none := by
  unfold DefaultAfter at h ⊢
  simp only [] at h ⊢
  cases ho : (m.callPutMetric env [⟨m.LatencyMetricName,
    [⟨"RequestURI", req.RequestURI⟩, ⟨"RemoteAddr", a⟩], s.wall, "Microseconds",
    wrapInt64 (latency * 1000)⟩] s).out with
  | returned =>
    rw [Run.andThen_returned _ _ ho]
    exact context_Get_Clear _ _ _
  | panicked msg =>
    rw [Run.andThen_panicked _ _ msg ho] at h
    cases h

theorem entryState_default (env : Env) (m : Middleware) (r : Request) (s : State)
    (hB : m.Before = none ∨ m.Before = some .DefaultBefore) :
    (m.bindDefaults.callBefore env r (remoteAddrOf r) s).out = .returned ∧
    m.entryState env r s = context.Set s r PutMetric (.func m.PutMetric) := by
  have h : m.bindDefaults.Before = some .DefaultBefore := by
    rw [bindDefaults_Before]
    rcases hB with h | h <;> simp [h]
  unfold Middleware.entryState Middleware.callBefore
  rw [h]
  exact ⟨rfl, rfl⟩

theorem afterRun_default (env : Env) (m : Middleware) (rw : ResponseWriter) (r : Request)
    (next : ResponseWriter → Request → Effect) (s : State) (key : CtxKey)
    (hA : m.After = none ∨ m.After = some .DefaultAfter)
    (h : (m.afterRun env rw r next s).out = .returned) :
    context.Get (m.afterRun env rw r next s).st r key = none := by
  have h2 : m.bindDefaults.After = some .DefaultAfter := by
    rw [bindDefaults_After]
    rcases hA with h | h <;> simp [h]
  unfold Middleware.afterRun Middleware.callAfter at h ⊢
  rw [h2] at h ⊢
  simp only [Run.andThen_step] at h ⊢
  exact DefaultAfter_clears env _ r rw _ _ _ key h

theorem callAfter_calls (env : Env) (m : Middleware) (r : Request) (res : ResponseWriter)
    (d : Duration) (a : String) (s : State) :
    (m.bindDefaults.callAfter env r res d a s).calls =
      .After (m.After.getD .DefaultAfter) r res d a :: m.afterCalls env r res d a s := by
  unfold Middleware.callAfter Middleware.afterCalls
  rw [bindDefaults_After]
  cases m.After.getD .DefaultAfter with
  | DefaultAfter => simp [Run.andThen_step]
  | custom id => simp [Run.call]

theorem afterCalls_not_step (env : Env) (m : Middleware) (r : Request) (res : ResponseWriter)
    (d : Duration) (a : String) (s : State) :
    ∀ e ∈ m.afterCalls env r res d a s, e.isStep = false := by
  unfold Middleware.afterCalls
  cases m.After.getD .DefaultAfter with
  | DefaultAfter =>
    intro e he
    have h := DefaultAfter_not_step env m.bindDefaults r res d a s
    rw [List.filter_eq_nil_iff] at h
    simpa using h e he
  | custom id => simp

theorem ServeHTTP_calls_negroni (env : Env) (m : Middleware) (rw : ResponseWriter)
    (r : Request) (next : ResponseWriter → Request → Effect) (s : State)
    (hne : r.URL.Path ∉ m.excludeURLs) (hrw : rw.isNegroni = true)
    (hB : (m.bindDefaults.callBefore env r (remoteAddrOf r) s).out = .returned)
    (hN : (next rw r (m.entryState env r s)).2 = .returned) :
    (m.ServeHTTP env rw r next s).2.calls =
      m.fullSteps env rw r next s ++
        m.afterCalls env r rw
          (m.clock.Since (m.clock.Now s) (next rw r (m.entryState env r s)).1)
          (remoteAddrOf r) (next rw r (m.entryState env r s)).1 := by
  unfold Middleware.entryState at hN
  rw [ServeHTTP_negroni env m rw r next s hne hB hN hrw]
  simp only [bindDefaults_callBefore_calls, callAfter_calls]
  rfl

theorem ServeHTTP_calls_not_negroni (env : Env) (m : Middleware) (rw : ResponseWriter)
    (r : Request) (next : ResponseWriter → Request → Effect) (s : State)
    (hne : r.URL.Path ∉ m.excludeURLs) (hrw : rw.isNegroni = false)
    (hB : (m.bindDefaults.callBefore env r (remoteAddrOf r) s).out = .returned)
    (hN : (next rw r (m.entryState env r s)).2 = .returned) :
    (m.ServeHTTP env rw r next s).2.calls =
      [.clockNow, .Before (m.Before.getD .DefaultBefore) r (remoteAddrOf r),
       .next rw r (m.entryState env r s), .clockSince (m.clock.Now s)] := by
  unfold Middleware.entryState at hN
  rw [ServeHTTP_not_negroni env m rw r next s hne hB hN hrw]
  simp only [bindDefaults_callBefore_calls]
  rfl

/-! ## The claims -/

/-- C1: evaluation at the excluded request `/ping`: `ServeHTTP` returns with no call of the
next handler. -/
theorem ServeHTTP_excluded_skips_next :
    pingRequest.URL.Path ∈ sampleMiddleware.ExcludedURLs ∧
    (sampleMiddleware.ServeHTTP (sampleEnv none) sampleWriter pingRequest sampleNext
      sampleState).2.out = .returned ∧
    (sampleMiddleware.ServeHTTP (sampleEnv none) sampleWriter pingRequest sampleNext
      sampleState).2.calls.countP Event.isNext = 0 := by
  decide

/-- C2: evaluation at an elapsed time of 10 microseconds (10000 ns): the datum
`DefaultAfter` hands to `m.PutMetric` has the value 10000000, not 10000 / 1000 = 10. -/
theorem DefaultAfter_value_ten_microseconds :
    (DefaultAfter (sampleEnv none) sampleMiddleware sampleRequest sampleWriter (10 * 1000)
      "10.10.10.10" sampleState).calls.filterMap
        (fun e => match e with
          | .PutMetric _ data => some (data.map MetricDatum.Value)
          | _ => none) = [[10000000]] ∧
    (10 * 1000 : Int) / 1000 = 10 := by
  decide

/-- C3: for a request whose path is in the exclusion set, `ServeHTTP` returns without a
call of `m.PutMetric`, of the pre-hook, of the post-hook or of the clock, and leaves the
state as it was. -/
theorem ServeHTTP_excluded_no_instrumentation (env : Env) (m : Middleware)
    (rw : ResponseWriter) (r : Request) (next : ResponseWriter → Request → Effect) (s : State)
    (h : r.URL.Path ∈ m.excludeURLs) :
    (m.ServeHTTP env rw r next s).2.out = .returned ∧
    (m.ServeHTTP env rw r next s).2.st = s ∧
    (m.ServeHTTP env rw r next s).2.calls.countP Event.isPutMetric = 0 ∧
    (m.ServeHTTP env rw r next s).2.calls.countP Event.isBefore = 0 ∧
    (m.ServeHTTP env rw r next s).2.calls.countP Event.isAfter = 0 ∧
    (m.ServeHTTP env rw r next s).2.calls.countP Event.isClock = 0 := by
  have h2 : r.URL.Path ∈ m.bindDefaults.excludeURLs := h
  simp [Middleware.ServeHTTP, h2]

theorem ServeHTTP_excluded_no_instrumentation_witness :
    pingRequest.URL.Path ∈ sampleMiddleware.excludeURLs ∧
    (sampleMiddleware.ServeHTTP (sampleEnv none) sampleWriter pingRequest sampleNext
      sampleState).2.calls.countP Event.isPutMetric = 0 :=
  ⟨by decide, (ServeHTTP_excluded_no_instrumentation (sampleEnv none) sampleMiddleware
    sampleWriter pingRequest sampleNext sampleState (by decide)).2.2.1⟩

/-- C4: when `u` does not parse, `ExcludeURL` returns the error and leaves the exclusion
set, hence `ExcludedURLs`, as it was; when `u` parses, it returns nil, and `ExcludedURLs`
then holds `u` and, as a set, the former entries and `u`. -/
theorem ExcludeURL_spec (env : Env) (m : Middleware) (u : String) :
    (∀ err, env.urlParse u = some err →
      (m.ExcludeURL env u).2 = some err ∧
      (m.ExcludeURL env u).1.excludeURLs = m.excludeURLs ∧
      (m.ExcludeURL env u).1.ExcludedURLs = m.ExcludedURLs) ∧
    (env.urlParse u = none →
      (m.ExcludeURL env u).2 = none ∧
      u ∈ (m.ExcludeURL env u).1.ExcludedURLs ∧
      ∀ x, x ∈ (m.ExcludeURL env u).1.ExcludedURLs ↔ x = u ∨ x ∈ m.ExcludedURLs) := by
  constructor
  · intro err h
    simp [Middleware.ExcludeURL, h]
  · intro h
    simp only [ExcludedURLs_eq, Middleware.ExcludeURL, h]
    by_cases hu : u ∈ m.excludeURLs
    · simp only [hu, if_true, true_and]
      intro x
      constructor
      · intro hx; exact Or.inr hx
      · rintro (rfl | hx)
        · exact hu
        · exact hx
    · simp only [hu, if_false, List.mem_append, List.mem_singleton, or_true, true_and]
      intro x
      tauto

theorem ExcludeURL_spec_witness :
    ((sampleEnv none).urlParse "/stuff" = none ∧
      (sampleMiddleware.ExcludeURL (sampleEnv none) "/stuff").2 = none ∧
      "/stuff" ∈ (sampleMiddleware.ExcludeURL (sampleEnv none) "/stuff").1.ExcludedURLs) ∧
    ((sampleEnv none).urlParse "/pi\nng" ≠ none ∧
      (sampleMiddleware.ExcludeURL (sampleEnv none) "/pi\nng").1.ExcludedURLs =
        sampleMiddleware.ExcludedURLs) :=
  ⟨⟨by decide, ((ExcludeURL_spec (sampleEnv none) sampleMiddleware "/stuff").2
      (by decide)).1, ((ExcludeURL_spec (sampleEnv none) sampleMiddleware "/stuff").2
      (by decide)).2.1⟩,
   by decide, ((ExcludeURL_spec (sampleEnv none) sampleMiddleware "/pi\nng").1
      (.generic "net/url: invalid control character in URL") (by decide)).2.2⟩

/-- C5: for a request whose path is not excluded, the pre-hook is called with a client
address that is the value of the `X-Real-IP` header when that value is not empty and
`r.RemoteAddr` when it is empty or the header is absent; every call of the pre-hook and of
the post-hook carries that address, and the post-hook is called with it whenever
`ServeHTTP` returns. -/
theorem ServeHTTP_client_address (env : Env) (m : Middleware) (rw : ResponseWriter)
    (r : Request) (next : ResponseWriter → Request → Effect) (s : State)
    (hne : r.URL.Path ∉ m.excludeURLs) :
    ∃ a : String,
      (r.Header.Get "X-Real-IP" ≠ "" → a = r.Header.Get "X-Real-IP") ∧
      (r.Header.Get "X-Real-IP" = "" → a = r.RemoteAddr) ∧
      (r.Header.lookup "X-Real-Ip" = none → a = r.RemoteAddr) ∧
      Event.Before (m.Before.getD .DefaultBefore) r a ∈ (m.ServeHTTP env rw r next s).2.calls ∧
      (∀ hook q b, Event.Before hook q b ∈ (m.ServeHTTP env rw r next s).2.calls → b = a) ∧
      (∀ hook q res d b,
        Event.After hook q res d b ∈ (m.ServeHTTP env rw r next s).2.calls → b = a) ∧
      ((m.ServeHTTP env rw r next s).2.out = .returned →
        ∃ d, Event.After (m.After.getD .DefaultAfter) r rw d a ∈
          (m.ServeHTTP env rw r next s).2.calls) := by
  obtain ⟨n, hn2, hn5, hcalls, _, _, _, _, hret⟩ := ServeHTTP_steps env m rw r next s hne
  have hmem : ∀ e, e ∈ (m.ServeHTTP env rw r next s).2.calls → e.isStep = true →
      e ∈ m.fullSteps env rw r next s := by
    intro e he hs
    have : e ∈ (m.ServeHTTP env rw r next s).2.calls.filter Event.isStep :=
      List.mem_filter.mpr ⟨he, hs⟩
    rw [hcalls] at this
    exact List.mem_of_mem_take this
  have hsub : ∀ e, e ∈ (m.fullSteps env rw r next s).take n →
      e ∈ (m.ServeHTTP env rw r next s).2.calls := by
    intro e he
    rw [← hcalls] at he
    exact (List.mem_filter.mp he).1
  refine ⟨remoteAddrOf r, ?_, ?_, ?_, ?_, ?_, ?_, ?_⟩
  · intro h; simp [remoteAddrOf, h]
  · intro h; simp [remoteAddrOf, h]
  · intro h
    have hk : CanonicalMIMEHeaderKey "X-Real-IP" = "X-Real-Ip" := by decide
    have : r.Header.Get "X-Real-IP" = "" := by
      unfold Header.Get
      rw [hk, h]
    simp [remoteAddrOf, this]
  · apply hsub
    interval_cases n <;> simp [Middleware.fullSteps]
  · intro hook q b hb
    have := hmem _ hb rfl
    simp [Middleware.fullSteps] at this
    exact this.2.2
  · intro hook q res d b hb
    have := hmem _ hb rfl
    simp [Middleware.fullSteps] at this
    exact this.2.2.2.2
  · intro hout
    obtain ⟨h5, _, _⟩ := hret hout
    subst h5
    refine ⟨m.clock.Since (m.clock.Now s) (next rw r (m.entryState env r s)).1, hsub _ ?_⟩
    simp [Middleware.fullSteps]

theorem ServeHTTP_client_address_witness :
    sampleRequest.Header.Get "X-Real-IP" = "10.10.10.10" ∧
    ∃ a : String,
      (sampleRequest.Header.Get "X-Real-IP" ≠ "" → a = sampleRequest.Header.Get "X-Real-IP") ∧
      (sampleRequest.Header.Get "X-Real-IP" = "" → a = sampleRequest.RemoteAddr) ∧
      (sampleRequest.Header.lookup "X-Real-Ip" = none → a = sampleRequest.RemoteAddr) ∧
      Event.Before (sampleMiddleware.Before.getD .DefaultBefore) sampleRequest a ∈
        (sampleMiddleware.ServeHTTP (sampleEnv none) sampleWriter sampleRequest sampleNext
          sampleState).2.calls ∧
      (∀ hook q b, Event.Before hook q b ∈
        (sampleMiddleware.ServeHTTP (sampleEnv none) sampleWriter sampleRequest sampleNext
          sampleState).2.calls → b = a) ∧
      (∀ hook q res d b, Event.After hook q res d b ∈
        (sampleMiddleware.ServeHTTP (sampleEnv none) sampleWriter sampleRequest sampleNext
          sampleState).2.calls → b = a) ∧
      ((sampleMiddleware.ServeHTTP (sampleEnv none) sampleWriter sampleRequest sampleNext
          sampleState).2.out = .returned →
        ∃ d, Event.After (sampleMiddleware.After.getD .DefaultAfter) sampleRequest
          sampleWriter d a ∈
          (sampleMiddleware.ServeHTTP (sampleEnv none) sampleWriter sampleRequest sampleNext
            sampleState).2.calls) :=
  ⟨by decide, ServeHTTP_client_address (sampleEnv none) sampleMiddleware sampleWriter
    sampleRequest sampleNext sampleState (by decide)⟩

/-- C6: `DefaultAfter` calls `m.PutMetric` once, with a batch of one datum that carries
the configured latency name, the unit `Microseconds` and the two dimensions `RequestURI`
(the request URI) and `RemoteAddr` (the client address), in that order. -/
theorem DefaultAfter_emits_one_datum (env : Env) (m : Middleware) (req : Request)
    (res : ResponseWriter) (latency : Duration) (a : String) (s : State) :
    ∃ d : MetricDatum,
      (DefaultAfter env m req res latency a s).calls.filter Event.isPutMetric =
        [.PutMetric m.PutMetric [d]] ∧
      d.MetricName = m.LatencyMetricName ∧
      d.Unit = "Microseconds" ∧
      d.Dimensions = [⟨"RequestURI", req.RequestURI⟩, ⟨"RemoteAddr", a⟩] := by
  refine ⟨⟨m.LatencyMetricName, [⟨"RequestURI", req.RequestURI⟩, ⟨"RemoteAddr", a⟩], s.wall,
    "Microseconds", wrapInt64 (latency * 1000)⟩, ?_, rfl, rfl, rfl⟩
  unfold DefaultAfter
  simp only []
  have hc := callPutMetric_calls env m [⟨m.LatencyMetricName,
    [⟨"RequestURI", req.RequestURI⟩, ⟨"RemoteAddr", a⟩], s.wall, "Microseconds",
    wrapInt64 (latency * 1000)⟩] s
  cases ho : (m.callPutMetric env [⟨m.LatencyMetricName,
    [⟨"RequestURI", req.RequestURI⟩, ⟨"RemoteAddr", a⟩], s.wall, "Microseconds",
    wrapInt64 (latency * 1000)⟩] s).out with
  | returned => simpa [Run.andThen_returned _ _ ho] using hc
  | panicked msg => simpa [Run.andThen_panicked _ _ msg ho] using hc

theorem DefaultAfter_emits_one_datum_witness :
    ∃ d : MetricDatum,
      (DefaultAfter (sampleEnv none) sampleMiddleware sampleRequest sampleWriter (10 * 1000)
        "10.10.10.10" sampleState).calls.filter Event.isPutMetric =
        [.PutMetric sampleMiddleware.PutMetric [d]] ∧
      d.MetricName = sampleMiddleware.LatencyMetricName ∧
      d.Unit = "Microseconds" ∧
      d.Dimensions = [⟨"RequestURI", sampleRequest.RequestURI⟩, ⟨"RemoteAddr", "10.10.10.10"⟩] :=
  DefaultAfter_emits_one_datum (sampleEnv none) sampleMiddleware sampleRequest sampleWriter
    (10 * 1000) "10.10.10.10" sampleState

/-- C7: for a request whose path is not excluded and a writer that is a
`negroni.ResponseWriter`, when the call of the pre-hook and the call of the next handler
return in this run, the calls `ServeHTTP` makes are, in order and once each:
`clock.Now()`, the pre-hook, `next(rw, r)`, `clock.Since(start)` with the instant `Now`
gave, and the post-hook with the duration `Since` gave; what follows in the record are the
calls the post-hook makes in its own body, none of which is one of these five. -/
theorem ServeHTTP_sequence (env : Env) (m : Middleware) (rw : ResponseWriter) (r : Request)
    (next : ResponseWriter → Request → Effect) (s : State)
    (hne : r.URL.Path ∉ m.excludeURLs) (hrw : rw.isNegroni = true)
    (hB : (m.bindDefaults.callBefore env r (remoteAddrOf r) s).out = .returned)
    (hN : (next rw r (m.entryState env r s)).2 = .returned) :
    (m.ServeHTTP env rw r next s).2.calls =
      [.clockNow,
       .Before (m.Before.getD .DefaultBefore) r (remoteAddrOf r),
       .next rw r (m.entryState env r s),
       .clockSince (m.clock.Now s),
       .After (m.After.getD .DefaultAfter) r rw
         (m.clock.Since (m.clock.Now s) (next rw r (m.entryState env r s)).1)
         (remoteAddrOf r)] ++
      m.afterCalls env r rw
        (m.clock.Since (m.clock.Now s) (next rw r (m.entryState env r s)).1)
        (remoteAddrOf r) (next rw r (m.entryState env r s)).1 ∧
    ∀ e ∈ m.afterCalls env r rw
        (m.clock.Since (m.clock.Now s) (next rw r (m.entryState env r s)).1)
        (remoteAddrOf r) (next rw r (m.entryState env r s)).1,
      e.isStep = false :=
  ⟨ServeHTTP_calls_negroni env m rw r next s hne hrw hB hN,
   afterCalls_not_step env m r rw _ _ _⟩

theorem ServeHTTP_sequence_witness :
    (emittingNext sampleWriter sampleRequest sampleState).2 ≠ .returned ∧
    (sampleMiddleware.ServeHTTP (sampleEnv none) sampleWriter sampleRequest emittingNext
      sampleState).2.calls =
      [.clockNow,
       .Before .DefaultBefore sampleRequest "10.10.10.10",
       .next sampleWriter sampleRequest
         (context.Set sampleState sampleRequest PutMetric (.func (.custom 0))),
       .clockSince 0,
       .After .DefaultAfter sampleRequest sampleWriter 10000 "10.10.10.10",
       .PutMetric (.custom 0)
         [⟨"Latency", [⟨"RequestURI", "http://example.com/stuff?rly=ya"⟩,
            ⟨"RemoteAddr", "10.10.10.10"⟩], 0, "Microseconds", 10000000⟩]] :=
  ⟨by decide,
   (ServeHTTP_sequence (sampleEnv none) sampleMiddleware sampleWriter sampleRequest
      emittingNext sampleState (by decide) (by decide) (by decide) (by decide)).1.trans
     (by decide)⟩

/-- C8: `putMetric` calls `PutMetricData` once, with the batch as given and the namespace
of the middleware, takes over the state the client leaves, and returns, whatever the
client answers. -/
theorem putMetric_swallows_errors (env : Env) (m : Middleware) (data : List MetricDatum)
    (s : State) :
    (putMetric env m data s).out = .returned ∧
    (putMetric env m data s).st = (env.PutMetricData m.Service ⟨data, m.Namespace⟩ s).1 ∧
    (putMetric env m data s).calls.filter Event.isPutMetricData =
      [.PutMetricData ⟨data, m.Namespace⟩] := by
  unfold putMetric
  cases h : (env.PutMetricData m.Service ⟨data, m.Namespace⟩ s).2 with
  | none => simp [h, Event.isPutMetricData]
  | some err => cases err <;> simp [h, Event.isPutMetricData]

theorem putMetric_swallows_errors_witness :
    (putMetric (sampleEnv (some (.generic "RequestError: send request failed")))
      sampleMiddleware [] sampleState).out = .returned ∧
    (putMetric (sampleEnv (some (.awserr "InvalidParameterValue" "bad namespace")))
      sampleMiddleware [] sampleState).out = .returned ∧
    (putMetric (sampleEnv none) sampleMiddleware [] sampleState).out = .returned :=
  ⟨(putMetric_swallows_errors _ _ _ _).1, (putMetric_swallows_errors _ _ _ _).1,
   (putMetric_swallows_errors _ _ _ _).1⟩

/-- C9: with the default pre- and post-hook (installed, or bound because the field is nil)
and a request whose path is not excluded, the next handler is called once, in a state
whose store maps the key `PutMetric` of the request to `m.PutMetric`; and when `ServeHTTP`
returns, the store holds nothing for the request. -/
theorem ServeHTTP_default_hooks_store (env : Env) (m : Middleware) (rw : ResponseWriter)
    (r : Request) (next : ResponseWriter → Request → Effect) (s : State)
    (hne : r.URL.Path ∉ m.excludeURLs)
    (hB : m.Before = none ∨ m.Before = some .DefaultBefore)
    (hA : m.After = none ∨ m.After = some .DefaultAfter) :
    (∃ entry,
      (m.ServeHTTP env rw r next s).2.calls.filter Event.isNext = [.next rw r entry] ∧
      context.Get entry r PutMetric = some (.func m.PutMetric)) ∧
    ((m.ServeHTTP env rw r next s).2.out = .returned →
      ∀ key, context.Get (m.ServeHTTP env rw r next s).2.st r key = none) := by
  obtain ⟨n, _, hn5, hcalls, h3, _, _, _, hret⟩ := ServeHTTP_steps env m rw r next s hne
  obtain ⟨hBr, hentry⟩ := entryState_default env m r s hB
  constructor
  · refine ⟨m.entryState env r s, ?_, ?_⟩
    · have hn3 := h3 hBr
      rw [← filter_isNext_steps, hcalls]
      interval_cases n <;> simp [Middleware.fullSteps, Event.isNext]
    · rw [hentry]
      exact context_Get_Set _ _ _ _
  · intro hout key
    obtain ⟨_, hst, hao⟩ := hret hout
    rw [hst]
    exact afterRun_default env m rw r next s key hA hao

theorem ServeHTTP_default_hooks_store_witness :
    (∃ entry,
      (sampleMiddleware.ServeHTTP (sampleEnv none) sampleWriter sampleRequest sampleNext
        sampleState).2.calls.filter Event.isNext = [.next sampleWriter sampleRequest entry] ∧
      context.Get entry sampleRequest PutMetric = some (.func sampleMiddleware.PutMetric)) ∧
    ((sampleMiddleware.ServeHTTP (sampleEnv none) sampleWriter sampleRequest sampleNext
        sampleState).2.out = .returned →
      ∀ key, context.Get (sampleMiddleware.ServeHTTP (sampleEnv none) sampleWriter
        sampleRequest sampleNext sampleState).2.st sampleRequest key = none) :=
  ServeHTTP_default_hooks_store (sampleEnv none) sampleMiddleware sampleWriter sampleRequest
    sampleNext sampleState (by decide) (Or.inr rfl) (Or.inr rfl)

/-- C10: for a request whose path is not excluded: when the writer is not a
`negroni.ResponseWriter`, `ServeHTTP` panics and the post-hook is not called, and when the
calls of the pre-hook and of next return in this run, the panic comes after exactly the
calls `clock.Now()`, pre-hook, `next(rw, r)` and `clock.Since(start)`; when the writer is a
`negroni.ResponseWriter`, every call of the post-hook carries that writer, and when the
calls of the pre-hook and of next return in this run the post-hook is called once. -/
theorem ServeHTTP_type_assertion (env : Env) (m : Middleware) (rw : ResponseWriter)
    (r : Request) (next : ResponseWriter → Request → Effect) (s : State)
    (hne : r.URL.Path ∉ m.excludeURLs) :
    (rw.isNegroni = false →
      (∃ msg, (m.ServeHTTP env rw r next s).2.out = .panicked msg) ∧
      (m.ServeHTTP env rw r next s).2.calls.countP Event.isAfter = 0 ∧
      ((m.bindDefaults.callBefore env r (remoteAddrOf r) s).out = .returned →
        (next rw r (m.entryState env r s)).2 = .returned →
        (m.ServeHTTP env rw r next s).2.calls =
          [.clockNow, .Before (m.Before.getD .DefaultBefore) r (remoteAddrOf r),
           .next rw r (m.entryState env r s), .clockSince (m.clock.Now s)])) ∧
    (rw.isNegroni = true →
      (∀ hook q res d b,
        Event.After hook q res d b ∈ (m.ServeHTTP env rw r next s).2.calls → res = rw) ∧
      ((m.bindDefaults.callBefore env r (remoteAddrOf r) s).out = .returned →
        (next rw r (m.entryState env r s)).2 = .returned →
        (m.ServeHTTP env rw r next s).2.calls.filter Event.isAfter =
          [.After (m.After.getD .DefaultAfter) r rw
            (m.clock.Since (m.clock.Now s) (next rw r (m.entryState env r s)).1)
            (remoteAddrOf r)])) := by
  obtain ⟨n, hn2, hn5, hcalls, _, _, h5, hnot, _⟩ := ServeHTTP_steps env m rw r next s hne
  constructor
  · intro hrw
    refine ⟨(hnot hrw).2, ?_, ?_⟩
    · have hn4 := (hnot hrw).1
      rw [List.countP_eq_length_filter, ← filter_isAfter_steps, hcalls]
      interval_cases n <;> simp [Middleware.fullSteps, Event.isAfter]
    · intro hB hN
      exact ServeHTTP_calls_not_negroni env m rw r next s hne hrw hB hN
  · intro hrw
    constructor
    · intro hook q res d b hb
      have hmem : Event.After hook q res d b ∈
          (m.ServeHTTP env rw r next s).2.calls.filter Event.isStep :=
        List.mem_filter.mpr ⟨hb, rfl⟩
      rw [hcalls] at hmem
      have := List.mem_of_mem_take hmem
      simp [Middleware.fullSteps] at this
      exact this.2.2.1
    · intro hB hN
      have hn : n = 5 := h5 hB hN hrw
      subst hn
      rw [← filter_isAfter_steps, hcalls]
      simp [Middleware.fullSteps, Event.isAfter]

theorem ServeHTTP_type_assertion_witness :
    ((∃ msg, (sampleMiddleware.ServeHTTP (sampleEnv none) plainWriter sampleRequest
        emittingNext sampleState).2.out = .panicked msg) ∧
      (sampleMiddleware.ServeHTTP (sampleEnv none) plainWriter sampleRequest emittingNext
        sampleState).2.calls =
        [.clockNow, .Before .DefaultBefore sampleRequest "10.10.10.10",
         .next plainWriter sampleRequest
           (context.Set sampleState sampleRequest PutMetric (.func (.custom 0))),
         .clockSince 0]) ∧
    (sampleMiddleware.ServeHTTP (sampleEnv none) sampleWriter sampleRequest emittingNext
      sampleState).2.calls.filter Event.isAfter =
      [.After .DefaultAfter sampleRequest sampleWriter 10000 "10.10.10.10"] :=
  ⟨⟨((ServeHTTP_type_assertion (sampleEnv none) sampleMiddleware plainWriter sampleRequest
        emittingNext sampleState (by decide)).1 rfl).1,
    (((ServeHTTP_type_assertion (sampleEnv none) sampleMiddleware plainWriter sampleRequest
        emittingNext sampleState (by decide)).1 rfl).2.2 (by decide) (by decide)).trans
      (by decide)⟩,
   (((ServeHTTP_type_assertion (sampleEnv none) sampleMiddleware sampleWriter sampleRequest
        emittingNext sampleState (by decide)).2 rfl).2 (by decide) (by decide)).trans
      (by decide)⟩

end NegroniCloudwatch
